import Mathlib

/-!
Verification of the state-reconciliation and action-dispatch core of the
ibm-panel front-panel (LCD) controller.  The repository ships the header
`src/include/bus_monitor.hpp` (declarations, member lists, default member
initializers and API doc comments for `PanelPresence`, `PELListener`,
`BootProgressCode`, `SystemStatus` and `BusHandler`); the corresponding
implementation files are not part of the sources, so the behaviour of the
callbacks, of the `PanelStateManager`, of the `Executor` and of the
`Transport` is modelled from the specification, while every structural fact
(which members a class holds, how a member is initialized, what an operation
is documented to do) is taken from the header.
-/

namespace IbmPanel

/-- Hardware-facing actions (spec §3 "Action": an immutable description of one
hardware-facing effect — display-text pair, lamp-test request, or the default
function-01 display fallback named by `BusHandler::triggerPanelLampTest`'s doc
comment in `src/include/bus_monitor.hpp`). -/
inductive Action where
  | displayText (line1 line2 : String)
  | lampTest
  | defaultFunction01
  deriving DecidableEq

/-- Error reports of the core (spec §7 taxonomy: `RejectedCommand` for a
command whose precondition fails, `DecodeError` for a malformed payload). -/
inductive Report where
  | rejectedCommand
  | decodeError
  deriving DecidableEq

/-- Last-known BMC readiness (spec §3 `bmcState`). -/
inductive BmcState where
  | starting
  | ready
  | quiesced
  deriving DecidableEq

/-- Chassis power state (spec §3 `powerState`). -/
inductive PowerState where
  | powerOff
  | powerOn
  | transitionOn
  | transitionOff
  deriving DecidableEq

/-- Modelled from the spec: the `PanelState` record owned by the
`PanelStateManager` (spec §3); the manager's implementation file is not under
the sources, only its callers in `src/include/bus_monitor.hpp` are.  The
policy triple and the derived operating mode live in `SystemStatus` below,
following the member lists of the header.  `functionEnabled` is the set of
currently enabled logical panel functions; `bootProgress` is the ordinal of
the last seen boot-progress stage. -/
structure PanelState where
  presence : Bool
  functionEnabled : Finset Nat
  bmcState : BmcState
  powerState : PowerState
  bootProgress : Nat
  deriving DecidableEq

/-- Modelled from the spec: `PanelStateManager.updatePresence` (spec §4.1):
sets `presence`; on a true→false transition it clears `functionEnabled`; on
false→true it leaves `functionEnabled` untouched (no auto-restore).  The
manager's implementation file is missing from the sources. -/
def updatePresence (s : PanelState) (b : Bool) : PanelState :=
  if s.presence && !b then
    { s with presence := b, functionEnabled := ∅ }
  else
    { s with presence := b }

/-- Modelled from the spec: `PanelStateManager.setFunctionEnabled` (spec
§4.1): rejected (no-op, reported as a `RejectedCommand`) while
`presence = false`; otherwise inserts or erases the function in the enabled
set.  The manager's implementation file is missing from the sources. -/
def setFunctionEnabled (s : PanelState) (f : Nat) (b : Bool) :
    PanelState × Option Report :=
  if s.presence then
    ({ s with functionEnabled :=
        if b then insert f s.functionEnabled else s.functionEnabled.erase f },
      none)
  else
    (s, some Report.rejectedCommand)

/-- One step of `toggleFunctionState`: apply `setFunctionEnabled` for a single
requested (function, desired-state) bit and accumulate any report. -/
def toggleStep (acc : PanelState × List Report) (fb : Nat × Bool) :
    PanelState × List Report :=
  match setFunctionEnabled acc.1 fb.1 fb.2 with
  | (s', some r) => (s', acc.2 ++ [r])
  | (s', none) => (s', acc.2)

/-- Modelled from the spec: `BusHandler::toggleFunctionState` (declared in
`src/include/bus_monitor.hpp`, implementation missing): for each function bit
present in the list it calls `setFunctionEnabled` with the bit's value (spec
§4.5), rejected per-bit while the panel is absent (spec §4.1). -/
def toggleFunctionState (s : PanelState) (l : List (Nat × Bool)) :
    PanelState × List Report :=
  l.foldl toggleStep (s, [])

lemma setFunctionEnabled_absent (s : PanelState) (f : Nat) (b : Bool)
    (h : s.presence = false) :
    setFunctionEnabled s f b = (s, some Report.rejectedCommand) := by
  simp [setFunctionEnabled, h]

lemma toggleStep_absent (s : PanelState) (acc : List Report) (fb : Nat × Bool)
    (h : s.presence = false) :
    toggleStep (s, acc) fb = (s, acc ++ [Report.rejectedCommand]) := by
  simp [toggleStep, setFunctionEnabled_absent s fb.1 fb.2 h]

lemma toggleFold_absent (l : List (Nat × Bool)) :
    ∀ (s : PanelState) (acc : List Report), s.presence = false →
      List.foldl toggleStep (s, acc) l
        = (s, acc ++ l.map fun _ => Report.rejectedCommand) := by
  induction l with
  | nil => intro s acc _; simp
  | cons fb t ih =>
      intro s acc h
      rw [List.foldl_cons, toggleStep_absent s acc fb h]
      rw [ih s (acc ++ [Report.rejectedCommand]) h]
      simp

lemma toggleStep_presence (acc : PanelState × List Report) (fb : Nat × Bool) :
    (toggleStep acc fb).1.presence = acc.1.presence := by
  by_cases hp : acc.1.presence = true
  · simp [toggleStep, setFunctionEnabled, hp]
  · simp [toggleStep, setFunctionEnabled, hp]

lemma toggleFold_presence (l : List (Nat × Bool)) :
    ∀ acc : PanelState × List Report,
      (List.foldl toggleStep acc l).1.presence = acc.1.presence := by
  induction l with
  | nil => intro acc; rfl
  | cons fb t ih =>
      intro acc
      rw [List.foldl_cons, ih (toggleStep acc fb), toggleStep_presence]

lemma updatePresence_clears (t : PanelState) (h : t.presence = true) :
    (updatePresence t false).functionEnabled = ∅ := by
  simp [updatePresence, h]

/-- Claim C5: a true→false presence transition clears `functionEnabled` to the
empty set; a false→true transition leaves `functionEnabled` unchanged (hence
still empty, with no auto-restore of previously enabled functions); and after
a presence false→true→false sequence — with any explicit re-enables in
between — `functionEnabled` is again empty at the second false transition. -/
theorem c5_presence_loss_clears_functions (s t : PanelState)
    (l : List (Nat × Bool)) (h : s.presence = true) :
    (updatePresence s false).functionEnabled = ∅
    ∧ (updatePresence t true).functionEnabled = t.functionEnabled
    ∧ (updatePresence
        (toggleFunctionState (updatePresence (updatePresence s false) true) l).1
        false).functionEnabled = ∅ := by
  refine ⟨updatePresence_clears s h, ?_, ?_⟩
  · simp [updatePresence]
  · apply updatePresence_clears
    rw [toggleFunctionState, toggleFold_presence]
    simp [updatePresence, h]

/-- Witness for C5 at a concrete state: panel present with function 3 enabled,
a second state absent with function 7 enabled, and a re-enable request for
functions 2 and 3 between the presence transitions. -/
theorem c5_presence_loss_clears_functions_witness :
    (⟨true, {3}, BmcState.ready, PowerState.powerOn, 0⟩ : PanelState).presence = true
    ∧ ((updatePresence ⟨true, {3}, BmcState.ready, PowerState.powerOn, 0⟩ false).functionEnabled = ∅
      ∧ (updatePresence ⟨false, {7}, BmcState.ready, PowerState.powerOn, 0⟩ true).functionEnabled
          = (⟨false, {7}, BmcState.ready, PowerState.powerOn, 0⟩ : PanelState).functionEnabled
      ∧ (updatePresence
          (toggleFunctionState
            (updatePresence
              (updatePresence ⟨true, {3}, BmcState.ready, PowerState.powerOn, 0⟩ false) true)
            [(2, true), (3, true)]).1
          false).functionEnabled = ∅) :=
  ⟨rfl, c5_presence_loss_clears_functions
    ⟨true, {3}, BmcState.ready, PowerState.powerOn, 0⟩
    ⟨false, {7}, BmcState.ready, PowerState.powerOn, 0⟩
    [(2, true), (3, true)] rfl⟩

/-- Claim C6: `toggleFunctionState` called while the panel is absent is a
rejected no-op: the state (in particular `functionEnabled`) is returned
unchanged, and one `RejectedCommand` is reported per requested bit. -/
theorem c6_toggle_rejected_when_absent (s : PanelState)
    (l : List (Nat × Bool)) (h : s.presence = false) :
    toggleFunctionState s l = (s, l.map fun _ => Report.rejectedCommand) := by
  rw [toggleFunctionState, toggleFold_absent l s [] h]
  simp

/-- Witness for C6: an absent panel with functions 1 and 2 enabled and a
request to toggle function 3 on and function 1 off — the state is unchanged
and both bits are rejected. -/
theorem c6_toggle_rejected_when_absent_witness :
    (⟨false, {1, 2}, BmcState.ready, PowerState.powerOn, 0⟩ : PanelState).presence = false
    ∧ toggleFunctionState ⟨false, {1, 2}, BmcState.ready, PowerState.powerOn, 0⟩
        [(3, true), (1, false)]
      = (⟨false, {1, 2}, BmcState.ready, PowerState.powerOn, 0⟩,
          [Report.rejectedCommand, Report.rejectedCommand]) :=
  ⟨rfl, c6_toggle_rejected_when_absent
    ⟨false, {1, 2}, BmcState.ready, PowerState.powerOn, 0⟩
    [(3, true), (1, false)] rfl⟩

/-- Power-restore policy (spec §3 `powerPolicy`; `SystemStatus` stores it as a
D-Bus string in `src/include/bus_monitor.hpp`, decoded here to its enum). -/
inductive PowerPolicy where
  | alwaysOn
  | alwaysOff
  | restore
  deriving DecidableEq

/-- Derived system operating mode (spec §3 `operatingMode`). -/
inductive OperatingMode where
  | normal
  | manufacturing
  | safe
  deriving DecidableEq

/-- Modelled from the spec: the mode-derivation table over the policy triple
(spec §4.1 and §8 — the implementation of
`SystemStatus::setSystemCurrentOperatingMode` is not under the sources, only
its declaration and doc comment are).  Per the spec's scenario, the triple
(loggingPolicy = true, powerPolicy = Restore, rebootPolicy = false) maps to
`Normal` and flipping only `rebootPolicy` to true maps to `Safe`; unspecified
combinations map to the documented default mode `Normal`. -/
def modeTable (lg : Bool) (pw : PowerPolicy) (rb : Bool) : OperatingMode :=
  match lg, pw, rb with
  | true, PowerPolicy.restore, true => OperatingMode.safe
  | _, _, _ => OperatingMode.normal

/-- The state tracked by the `SystemStatus` adapter: its three policy members
(`src/include/bus_monitor.hpp` declares `loggingPolicy`, `powerPolicy`,
`rebootPolicy` as members) together with the operating mode the adapter
derives from them and forwards to the state manager. -/
structure SystemStatus where
  loggingPolicy : Bool
  powerPolicy : PowerPolicy
  rebootPolicy : Bool
  operatingMode : OperatingMode
  deriving DecidableEq

/-- Modelled from the spec: `SystemStatus::setSystemCurrentOperatingMode`
(declared in `src/include/bus_monitor.hpp`, implementation missing): set the
system operating mode from the values of the three policy parameters, by the
single source-of-truth table. -/
def setSystemCurrentOperatingMode (s : SystemStatus) : SystemStatus :=
  { s with operatingMode :=
      modeTable s.loggingPolicy s.powerPolicy s.rebootPolicy }

/-- One policy-changed callback of the `SystemStatus` adapter (logging
setting, power policy, or reboot policy — `src/include/bus_monitor.hpp`
declares the three callbacks; their implementations are missing). -/
inductive PolicyEvent where
  | loggingSetting (b : Bool)
  | powerPolicyChange (p : PowerPolicy)
  | rebootPolicyChange (b : Bool)
  deriving DecidableEq

/-- Modelled from the spec: each policy callback replaces exactly the one
policy field it owns and then always recomputes the operating mode from the
current triple (spec §4.1 `updatePolicy`); no event writes the mode
directly. -/
def applyPolicyEvent (s : SystemStatus) (e : PolicyEvent) : SystemStatus :=
  match e with
  | PolicyEvent.loggingSetting b =>
      setSystemCurrentOperatingMode { s with loggingPolicy := b }
  | PolicyEvent.powerPolicyChange p =>
      setSystemCurrentOperatingMode { s with powerPolicy := p }
  | PolicyEvent.rebootPolicyChange b =>
      setSystemCurrentOperatingMode { s with rebootPolicy := b }

/-- A sequence of policy-changed callbacks, applied in arrival order. -/
def applyPolicyEvents (s : SystemStatus) (es : List PolicyEvent) : SystemStatus :=
  es.foldl applyPolicyEvent s

/-- Modelled from the spec: `SystemStatus::initSystemOperatingParameters`
(declared in `src/include/bus_monitor.hpp`, implementation missing): the
initial synchronous read of the three policies at construction, followed by
the first mode derivation (spec §4.2, aggregate status adapter). -/
def initSystemOperatingParameters (lg : Bool) (pw : PowerPolicy) (rb : Bool) :
    SystemStatus :=
  setSystemCurrentOperatingMode ⟨lg, pw, rb, OperatingMode.normal⟩

lemma applyPolicyEvent_mode (s : SystemStatus) (e : PolicyEvent) :
    (applyPolicyEvent s e).operatingMode
      = modeTable (applyPolicyEvent s e).loggingPolicy
          (applyPolicyEvent s e).powerPolicy
          (applyPolicyEvent s e).rebootPolicy := by
  cases e <;> rfl

lemma applyPolicyEvents_mode (es : List PolicyEvent) :
    ∀ s : SystemStatus,
      s.operatingMode = modeTable s.loggingPolicy s.powerPolicy s.rebootPolicy →
      (applyPolicyEvents s es).operatingMode
        = modeTable (applyPolicyEvents s es).loggingPolicy
            (applyPolicyEvents s es).powerPolicy
            (applyPolicyEvents s es).rebootPolicy := by
  induction es with
  | nil => intro s h; exact h
  | cons e t ih =>
      intro s _
      exact ih (applyPolicyEvent s e) (applyPolicyEvent_mode s e)

/-- Claim C1: after the initial synchronous read and any sequence of policy
updates whatsoever, the derived `operatingMode` equals the table lookup of the
final (loggingPolicy, powerPolicy, rebootPolicy) triple; by construction of
`PolicyEvent` no adapter event writes the mode directly — every event goes
through `setSystemCurrentOperatingMode`'s table lookup. -/
theorem c1_operating_mode_is_table_of_triple (lg : Bool) (pw : PowerPolicy)
    (rb : Bool) (es : List PolicyEvent) :
    (applyPolicyEvents (initSystemOperatingParameters lg pw rb) es).operatingMode
      = modeTable
          (applyPolicyEvents (initSystemOperatingParameters lg pw rb) es).loggingPolicy
          (applyPolicyEvents (initSystemOperatingParameters lg pw rb) es).powerPolicy
          (applyPolicyEvents (initSystemOperatingParameters lg pw rb) es).rebootPolicy :=
  applyPolicyEvents_mode es (initSystemOperatingParameters lg pw rb) rfl

/-- Effects a presence callback can perform on the rest of the system: set
the `Transport` key, or call `updatePresence` on the state manager. -/
inductive PresenceEffect where
  | setTransportKey (b : Bool)
  | updatePresenceCall (b : Bool)
  deriving DecidableEq

/-- The collaborators a component can hold a reference to (the member lists of
the classes in `src/include/bus_monitor.hpp`). -/
inductive Ref where
  | transport
  | iface
  | stateManager
  | executor
  | conn
  | objectPath
  deriving DecidableEq

/-- Members of `PanelPresence`, from `src/include/bus_monitor.hpp` (fields
`objectPath`, `conn`, `transport`): the presence adapter holds a `Transport`
and no reference to the `PanelStateManager`. -/
def panelPresenceMembers : List Ref := [Ref.objectPath, Ref.conn, Ref.transport]

/-- Modelled from the spec and the header's doc comment:
`PanelPresence::readPresentProperty` (implementation missing) — "Read panel's
'Present' property and set the transport key"; a payload that does not decode
to a boolean is discarded (spec §4.2 defensive decode).  The result is the
list of effects the callback performs. -/
def readPresentProperty (payload : Option Bool) : List PresenceEffect :=
  match payload with
  | some b => [PresenceEffect.setTransportKey b]
  | none => []

/-- Counterexample for claim C2 as stated: on the concrete decoded payload
`true` the presence callback's effect list is exactly one `setTransportKey`
call and contains no `updatePresence` call on the state manager — indeed
`PanelPresence` holds no state-manager reference at all. -/
theorem c2_counterexample_no_update_presence_call :
    readPresentProperty (some true) = [PresenceEffect.setTransportKey true]
    ∧ PresenceEffect.updatePresenceCall true ∉ readPresentProperty (some true)
    ∧ Ref.stateManager ∉ panelPresenceMembers := by
  decide

/-- Claim C2 as amended: for every property-changed notification of the
presence attribute, the presence adapter decodes a boolean from the payload
and sets the `Transport`'s transport key with that value (the class holds a
`Transport`, not the `PanelStateManager`); an undecodable payload is
discarded with no effect. -/
theorem c2_presence_adapter_sets_transport_key :
    (∀ b : Bool, readPresentProperty (some b) = [PresenceEffect.setTransportKey b])
    ∧ readPresentProperty (none : Option Bool) = []
    ∧ Ref.transport ∈ panelPresenceMembers := by
  decide

/-- Modelled from the spec: the observable state of the `Executor` and the
`Transport` together (spec §4.3 and §4.4; `executor.hpp` and `transport.hpp`
are included by `src/include/bus_monitor.hpp` but are not under the sources).
`queue` is the single ordered action queue, `presence` the Transport's
reachability fact, `submitted` the history of submissions, `processed` the
history of actions the lone worker has taken off the queue (in order),
`sent` the history of `Transport.send` invocations, and `dropped` the actions
discarded because the panel was absent at execution time. -/
structure ExecSystem where
  queue : List Action
  presence : Bool
  submitted : List Action
  processed : List Action
  sent : List Action
  dropped : List Action
  deriving DecidableEq

/-- Events of the executor model: a non-blocking submission, a change of the
panel-presence fact, or one step of the lone worker. -/
inductive ExecEvent where
  | submit (a : Action)
  | presenceChange (b : Bool)
  | workerStep
  deriving DecidableEq

/-- Modelled from the spec: one transition of the Executor/Transport system.
`submit` enqueues at the back (spec §4.3: single ordered queue).  The worker
dequeues the front action and checks the current presence value immediately
before execution: present → `Transport.send`; absent → the action is dropped,
never sent (spec §4.3 drop-on-absence policy, §4.4 reachability check). -/
def execStep (s : ExecSystem) (e : ExecEvent) : ExecSystem :=
  match e with
  | ExecEvent.submit a =>
      { s with queue := s.queue ++ [a], submitted := s.submitted ++ [a] }
  | ExecEvent.presenceChange b => { s with presence := b }
  | ExecEvent.workerStep =>
      match s.queue with
      | [] => s
      | a :: rest =>
          if s.presence then
            { s with queue := rest, processed := s.processed ++ [a],
                     sent := s.sent ++ [a] }
          else
            { s with queue := rest, processed := s.processed ++ [a],
                     dropped := s.dropped ++ [a] }

/-- A run of the executor model over a sequence of events. -/
def execRun (s : ExecSystem) (es : List ExecEvent) : ExecSystem :=
  es.foldl execStep s

/-- The executor's starting state: empty queue, empty histories, panel
present. -/
def execInit : ExecSystem := ⟨[], true, [], [], [], []⟩

lemma execStep_sent_absent (s : ExecSystem) (e : ExecEvent)
    (h : s.presence = false) : (execStep s e).sent = s.sent := by
  cases e with
  | submit a => rfl
  | presenceChange b => rfl
  | workerStep =>
      cases hq : s.queue with
      | nil => simp [execStep, hq]
      | cons a rest => simp [execStep, hq, h]

lemma execStep_presence_submit (s : ExecSystem) (a : Action) :
    (execStep s (ExecEvent.submit a)).presence = s.presence := rfl

lemma execStep_presence_worker (s : ExecSystem) :
    (execStep s ExecEvent.workerStep).presence = s.presence := by
  cases hq : s.queue with
  | nil => simp [execStep, hq]
  | cons a rest =>
      by_cases hp : s.presence = true <;> simp [execStep, hq, hp]

lemma execRun_sent_absent (es : List ExecEvent) :
    ∀ s : ExecSystem, s.presence = false →
      (∀ b, ExecEvent.presenceChange b ∈ es → b = false) →
      (execRun s es).sent = s.sent := by
  induction es with
  | nil => intro s _ _; rfl
  | cons e t ih =>
      intro s h hev
      have hpres : (execStep s e).presence = false := by
        cases e with
        | submit a => exact h
        | presenceChange b =>
            have hb : b = false := hev b (List.mem_cons_self _ _)
            simp [execStep, hb]
        | workerStep => rw [execStep_presence_worker]; exact h
      have htail : (execRun (execStep s e) t).sent = (execStep s e).sent :=
        ih (execStep s e) hpres (fun b hb => hev b (List.mem_cons_of_mem _ hb))
      calc (execRun s (e :: t)).sent
          = (execRun (execStep s e) t).sent := rfl
        _ = (execStep s e).sent := htail
        _ = s.sent := execStep_sent_absent s e h

/-- Claim C3: while `presence = false`, `Transport.send` is never invoked —
no single event extends the `sent` history; a queued action is checked
against the current presence value immediately before execution and, the
panel being absent, is dropped (moved to `dropped`, not to `sent`), even if
presence was true when it was submitted; and over any whole event sequence
during which presence stays false, the `sent` history never grows. -/
theorem c3_absent_never_sends (s : ExecSystem) (e : ExecEvent) (a : Action)
    (rest : List Action) (es : List ExecEvent) (h : s.presence = false)
    (hq : s.queue = a :: rest)
    (hev : ∀ b, ExecEvent.presenceChange b ∈ es → b = false) :
    (execStep s e).sent = s.sent
    ∧ execStep s ExecEvent.workerStep
        = { s with queue := rest, processed := s.processed ++ [a],
                   dropped := s.dropped ++ [a] }
    ∧ (execRun s es).sent = s.sent := by
  refine ⟨execStep_sent_absent s e h, ?_, execRun_sent_absent es s h hev⟩
  simp [execStep, hq, h]

/-- Witness for C3, the spec's scenario: with the panel present, a lamp-test
action is submitted, then presence becomes false before execution; at the
worker step the queued action is dropped and `Transport.send` is never
invoked (the `sent` history stays empty). -/
theorem c3_absent_never_sends_witness :
    (execRun execInit [ExecEvent.submit Action.lampTest,
        ExecEvent.presenceChange false]).presence = false
    ∧ (execRun execInit [ExecEvent.submit Action.lampTest,
        ExecEvent.presenceChange false]).queue = [Action.lampTest]
    ∧ ((execStep (execRun execInit [ExecEvent.submit Action.lampTest,
          ExecEvent.presenceChange false]) ExecEvent.workerStep).sent
        = (execRun execInit [ExecEvent.submit Action.lampTest,
            ExecEvent.presenceChange false]).sent
      ∧ execStep (execRun execInit [ExecEvent.submit Action.lampTest,
            ExecEvent.presenceChange false]) ExecEvent.workerStep
          = { execRun execInit [ExecEvent.submit Action.lampTest,
                ExecEvent.presenceChange false] with
              queue := [],
              processed := (execRun execInit [ExecEvent.submit Action.lampTest,
                ExecEvent.presenceChange false]).processed ++ [Action.lampTest],
              dropped := (execRun execInit [ExecEvent.submit Action.lampTest,
                ExecEvent.presenceChange false]).dropped ++ [Action.lampTest] }
      ∧ (execRun (execRun execInit [ExecEvent.submit Action.lampTest,
            ExecEvent.presenceChange false]) [ExecEvent.workerStep]).sent
          = (execRun execInit [ExecEvent.submit Action.lampTest,
              ExecEvent.presenceChange false]).sent) :=
  ⟨rfl, rfl,
    c3_absent_never_sends
      (execRun execInit [ExecEvent.submit Action.lampTest,
        ExecEvent.presenceChange false])
      ExecEvent.workerStep Action.lampTest [] [ExecEvent.workerStep]
      rfl rfl (by decide)⟩

lemma execStep_fifo (s : ExecSystem) (e : ExecEvent)
    (h : s.submitted = s.processed ++ s.queue) :
    (execStep s e).submitted = (execStep s e).processed ++ (execStep s e).queue := by
  cases e with
  | submit a => simp [execStep, h]
  | presenceChange b => simpa [execStep] using h
  | workerStep =>
      cases hq : s.queue with
      | nil => simp [execStep, hq, hq ▸ h]
      | cons a rest =>
          by_cases hp : s.presence = true <;>
            simp [execStep, hq, hp, hq ▸ h]

lemma execRun_fifo (es : List ExecEvent) :
    ∀ s : ExecSystem, s.submitted = s.processed ++ s.queue →
      (execRun s es).submitted
        = (execRun s es).processed ++ (execRun s es).queue := by
  induction es with
  | nil => intro s h; exact h
  | cons e t ih => intro s h; exact ih (execStep s e) (execStep_fifo s e h)

/-- Claim C4: in every run of the executor from its starting state, the lone
worker takes actions off the single ordered queue strictly in submission
order — the submission history always equals the processed-in-order history
followed by the still-queued suffix, so execution is FIFO with no reordering
and (the worker being a single sequential consumer in this model) no two
actions ever execute concurrently. -/
theorem c4_executor_fifo (es : List ExecEvent) :
    (execRun execInit es).submitted
      = (execRun execInit es).processed ++ (execRun execInit es).queue :=
  execRun_fifo es execInit rfl

/-- Effects a `BusHandler` operation can perform: invoke the `Transport`
directly with an action, submit an action to the `Executor`, or call the
state manager's function-toggle operation. -/
inductive BusEffect where
  | transportSend (a : Action)
  | executorSubmit (a : Action)
  | managerToggle (l : List (Nat × Bool))
  deriving DecidableEq

/-- Members of `BusHandler`, from `src/include/bus_monitor.hpp` (fields
`transport`, `iface`, `stateManager`): the command handler holds the
`Transport` directly and holds no `Executor` reference. -/
def busHandlerMembers : List Ref := [Ref.transport, Ref.iface, Ref.stateManager]

/-- Modelled from the spec and the header's doc comment:
`BusHandler::display` (implementation missing) — display the two given lines
on the LCD panel; the handler's only hardware path is the `Transport` member
it holds. -/
def BusHandler.display (line1 line2 : String) : List BusEffect :=
  [BusEffect.transportSend (Action.displayText line1 line2)]

/-- Modelled from the spec and the header's doc comment:
`BusHandler::triggerPanelLampTest` (implementation missing) — "If state is
true, the panel lamp test command will be sent to the panel micro code.  If
false, then default function 01 execution happens"; again over the
`Transport` member the handler holds. -/
def BusHandler.triggerPanelLampTest (state : Bool) : List BusEffect :=
  if state then [BusEffect.transportSend Action.lampTest]
  else [BusEffect.transportSend Action.defaultFunction01]

/-- Claim C7 as stated: every hardware-facing effect of the externally
callable command operations is an `Executor` submission, never a direct
`Transport` invocation. -/
def claimC7Statement : Prop :=
  (∀ line1 line2 : String, ∀ e ∈ BusHandler.display line1 line2,
      ∃ a, e = BusEffect.executorSubmit a)
  ∧ ∀ b : Bool, ∀ e ∈ BusHandler.triggerPanelLampTest b,
      ∃ a, e = BusEffect.executorSubmit a

/-- Counterexample for claim C7: the claim as stated is false — already the
`display` operation on the concrete lines "A"/"B" performs a direct
`Transport` send and no `Executor` submission (`BusHandler` holds no
`Executor` member at all, per its member list in the header). -/
theorem c7_counterexample_direct_transport : ¬claimC7Statement := by
  intro h
  obtain ⟨a, ha⟩ := h.1 "A" "B"
    (BusEffect.transportSend (Action.displayText "A" "B"))
    (by simp [BusHandler.display])
  exact BusEffect.noConfusion ha

/-- Claim C7 as amended: the hardware-facing effects of the command
operations (display, lamp test) are performed by invoking the `Transport`
directly from the command handler — which holds a `Transport` member and no
`Executor` reference — not by submitting to the `Executor`. -/
theorem c7_command_ops_invoke_transport (line1 line2 : String) (b : Bool) :
    BusHandler.display line1 line2
      = [BusEffect.transportSend (Action.displayText line1 line2)]
    ∧ BusHandler.triggerPanelLampTest b
        = [BusEffect.transportSend
            (if b then Action.lampTest else Action.defaultFunction01)]
    ∧ Ref.executor ∉ busHandlerMembers
    ∧ Ref.transport ∈ busHandlerMembers := by
  refine ⟨rfl, ?_, by decide, by decide⟩
  cases b <;> rfl

/-- Claim C9: `triggerPanelLampTest` with `enable = true` issues the
lamp-test action; with `enable = false` it issues the default function-01
display action instead — an explicit fallback, never a no-op. -/
theorem c9_lamp_test_explicit_fallback :
    BusHandler.triggerPanelLampTest true
      = [BusEffect.transportSend Action.lampTest]
    ∧ BusHandler.triggerPanelLampTest false
        = [BusEffect.transportSend Action.defaultFunction01]
    ∧ ∀ b : Bool, BusHandler.triggerPanelLampTest b ≠ [] := by
  decide

/-- The `PELListener` class of `src/include/bus_monitor.hpp`: it holds the
bus connection, the state manager and the executor (abstract handles here),
and the member `functionStateEnabled` with its in-class default initializer
`false` (header line 105). -/
structure PELListener where
  conn : Nat
  stateManager : Nat
  executor : Nat
  functionStateEnabled : Bool
  deriving DecidableEq

/-- The `PELListener` constructor from the header (lines 78–84): it stores
the connection, state-manager and executor handles and does not touch
`functionStateEnabled`, which therefore keeps its default initializer
`false`. -/
def mkPELListener (con manager execute : Nat) : PELListener :=
  ⟨con, manager, execute, false⟩

/-- The panel function that displays a platform event log's data. -/
def pelDisplayFunction : Nat := 11

/-- Modelled from the spec: `PELListener::PELEventCallBack` (declared in the
header, implementation missing; spec §4.2, event-log adapter): gated by the
listener's feature-enabled flag, it decodes the entry's metadata — observing
the manager state `stateAtDecode` — and submits a display action summarizing
the event only if the underlying function is enabled in the manager state
`stateAtSubmission` observed at submission time; the decode-time observation
never decides the submission.  An undecodable payload is discarded. -/
def PELEventCallBack (listener : PELListener) (payload : Option String)
    (stateAtDecode stateAtSubmission : PanelState) : List Action :=
  match payload with
  | none => []
  | some srcText =>
      if listener.functionStateEnabled = true
          ∧ pelDisplayFunction ∈ stateAtSubmission.functionEnabled then
        [Action.displayText srcText ""]
      else []

/-- Claim C8: the event-log adapter submits its display action only if the
underlying function is enabled in the `functionEnabled` set observed at
submission time: if the function is disabled there, nothing is submitted —
whatever the manager state observed at decode time said (a disable racing
with decode still suppresses the action), and indeed the submission outcome
never depends on the decode-time observation. -/
theorem c8_enablement_checked_at_submission (listener : PELListener)
    (txt : String) (sd sd' ss : PanelState)
    (h : pelDisplayFunction ∉ ss.functionEnabled) :
    PELEventCallBack listener (some txt) sd ss = []
    ∧ PELEventCallBack listener (some txt) sd' ss
        = PELEventCallBack listener (some txt) sd ss := by
  constructor
  · simp [PELEventCallBack, h]
  · rfl

/-- Witness for C8: the gate is on and function 11 was enabled in the state
observed at decode time, but a racing disable left it out of the state
observed at submission time — no action is submitted. -/
theorem c8_enablement_checked_at_submission_witness :
    pelDisplayFunction ∉
        (⟨true, ∅, BmcState.ready, PowerState.powerOn, 3⟩ : PanelState).functionEnabled
    ∧ (PELEventCallBack ⟨0, 1, 2, true⟩ (some "SRC B181E911")
          ⟨true, {11}, BmcState.ready, PowerState.powerOn, 3⟩
          ⟨true, ∅, BmcState.ready, PowerState.powerOn, 3⟩ = []
      ∧ PELEventCallBack ⟨0, 1, 2, true⟩ (some "SRC B181E911")
          ⟨true, ∅, BmcState.ready, PowerState.powerOn, 3⟩
          ⟨true, ∅, BmcState.ready, PowerState.powerOn, 3⟩
        = PELEventCallBack ⟨0, 1, 2, true⟩ (some "SRC B181E911")
            ⟨true, {11}, BmcState.ready, PowerState.powerOn, 3⟩
            ⟨true, ∅, BmcState.ready, PowerState.powerOn, 3⟩) :=
  ⟨by decide,
    c8_enablement_checked_at_submission ⟨0, 1, 2, true⟩ "SRC B181E911"
      ⟨true, {11}, BmcState.ready, PowerState.powerOn, 3⟩
      ⟨true, ∅, BmcState.ready, PowerState.powerOn, 3⟩
      ⟨true, ∅, BmcState.ready, PowerState.powerOn, 3⟩ (by decide)⟩

/-- Claim C10: immediately after construction, `PELListener`'s feature gate
`functionStateEnabled` is `false` (its in-class default initializer; the
constructor does not touch it), so no platform-event-log notification — with
any payload and any manager states — results in a display-action submission
until the gate is explicitly enabled. -/
theorem c10_pel_gate_starts_disabled (con manager execute : Nat)
    (payload : Option String) (sd ss : PanelState) :
    (mkPELListener con manager execute).functionStateEnabled = false
    ∧ PELEventCallBack (mkPELListener con manager execute) payload sd ss = [] := by
  refine ⟨rfl, ?_⟩
  cases payload with
  | none => rfl
  | some txt => simp [PELEventCallBack, mkPELListener]

end IbmPanel
